import Mathlib

/-
  Verification development for the GKA repository (src/utils.py, src/settings.py).

  The Python code is shallowly embedded: pandas DataFrames become the `Table`
  structure below (ordered column names plus index-labelled rows of cells),
  Python exceptions become the `PyErr` sum returned through `Except`, and the
  filesystem consulted by `validate_file` / the pydantic path validators becomes
  the explicit `Fs` record.  Each definition mirrors one Python function of the
  repository; the pandas / pydantic library operations they call are embedded by
  their documented behaviour (noted at each use site).
-/

namespace GKA

/-- Kinds of Python exception raised by the functions in src/utils.py and by the
pandas operations they invoke.  `valueError` corresponds to the InvalidArgument
failures of the spec, `keyError` to ColumnNotFound, `fileNotFoundError` to
FileNotFound and `permissionError` to PermissionDenied. -/
inductive PyErr where
  | valueError
  | keyError
  | fileNotFoundError
  | permissionError
  | attributeError
  | indexError
deriving DecidableEq

/-- Decidable equality for `Except`, so that concrete runs of the embedded
functions can be checked by `decide`. -/
instance {ε α : Type} [DecidableEq ε] [DecidableEq α] : DecidableEq (Except ε α) := fun a b =>
  match a, b with
  | .ok x, .ok y =>
      if h : x = y then .isTrue (by rw [h]) else .isFalse (fun hc => h (Except.ok.inj hc))
  | .error x, .error y =>
      if h : x = y then .isTrue (by rw [h]) else .isFalse (fun hc => h (Except.error.inj hc))
  | .ok _, .error _ => .isFalse (fun hc => Except.noConfusion hc)
  | .error _, .ok _ => .isFalse (fun hc => Except.noConfusion hc)

/-- Embedding of `current_ano_safra` (src/utils.py, lines 8 to 44) for an
explicitly supplied month.  The Python code raises ValueError unless
1 <= month <= 12, returns str(1) for month 4, str(month - 3) for month >= 5
and str(month + 9) otherwise. -/
def current_ano_safra (month : Int) : Except PyErr String :=
  if ¬ (1 ≤ month ∧ month ≤ 12) then .error .valueError
  else if month = 4 then .ok (toString (1 : Int))
  else if 5 ≤ month then .ok (toString (month - 3))
  else .ok (toString (month + 9))

/-- Filesystem model for the path checks: the sets (as lists) of existing
regular files, existing directories, and paths readable by the process.
`Path.exists` holds on files and directories alike; `os.access(p, R_OK)`
corresponds to membership in `readable`. -/
structure Fs where
  files : List String
  dirs : List String
  readable : List String
deriving DecidableEq

/-- Embedding of `validate_file` (src/utils.py, lines 46 to 71): raise
FileNotFoundError when the path does not exist, PermissionError when it exists
but is not readable, and return True otherwise. -/
def validate_file (fs : Fs) (path : String) : Except PyErr Bool :=
  if ¬ (path ∈ fs.files ∨ path ∈ fs.dirs) then .error .fileNotFoundError
  else if path ∉ fs.readable then .error .permissionError
  else .ok true

/-- A cell of a DataFrame: a string, an integer, the float missing value
np.nan (what pandas stores for an empty spreadsheet cell), or the pandas
missing marker pd.NA (what Series.replace inserts in clean_key).  Python
str() renders np.nan as "nan" and pd.NA as "<NA>". -/
inductive Cell where
  | str (s : String)
  | int (n : Int)
  | nan
  | na
deriving DecidableEq

/-- A pandas DataFrame: the ordered column names, and the rows, each carrying
its index label (a natural number, as produced by the default RangeIndex of
read_excel) together with its cells, positionally aligned with `cols`. -/
structure Table where
  cols : List String
  rows : List (Nat × List Cell)
deriving DecidableEq

/-- The index of a table: the list of its row labels, in order. -/
def Table.index (t : Table) : List Nat := t.rows.map Prod.fst

/-- Embedding of `DataFrame.drop(labels)` on the row axis: pandas removes
every row whose index label occurs in `labels` and raises KeyError when some
requested label is absent from the index (the errors parameter defaults to
raise). -/
def Table.dropLabels (t : Table) (labels : List Nat) : Except PyErr Table :=
  if ∀ l ∈ labels, l ∈ t.index then
    .ok { t with rows := t.rows.filter (fun r => r.1 ∉ labels) }
  else .error .keyError

/-- Embedding of Python range(a, b) as a list. -/
def pyRange (a b : Nat) : List Nat := (List.range (b - a)).map (a + ·)

/-- Embedding of `remove_lines` (src/utils.py, lines 115 to 140).  The inner
transform_df calls df.drop on list(range(0, args[0])) in interval mode with
one argument, on list(range(args[0], args[1])) in interval mode with two
arguments, and on list(args) in every other case. -/
def remove_lines (args : List Nat) (mode : String) (df : Table) : Except PyErr Table :=
  if mode = "interval" ∧ args.length = 1 then
    df.dropLabels (pyRange 0 (args.headD 0))
  else if mode = "interval" ∧ args.length = 2 then
    df.dropLabels (pyRange (args.headD 0) (args.getD 1 0))
  else
    df.dropLabels args

/-- Embedding of `df.drop(names, axis=1)` for a list of names drawn from the
column index: pandas removes every column whose name occurs in `names` (all
occurrences when a name is duplicated), projecting each row accordingly. -/
def Table.dropColsByName (t : Table) (names : List String) : Table :=
  { cols := t.cols.filter (fun c => c ∉ names),
    rows := t.rows.map (fun r =>
      (r.1, ((r.2.zip t.cols).filter (fun p => p.2 ∉ names)).map Prod.fst)) }

/-- Embedding of the positional selection `df.columns[list(args)]`: an
IndexError when some position is out of range, otherwise the list of the
column names at the given positions. -/
def selectColNames (cols : List String) (args : List Nat) : Except PyErr (List String) :=
  if ∀ i ∈ args, i < cols.length then .ok (args.map (fun i => cols.getD i ""))
  else .error .indexError

/-- Embedding of `remove_columns` (src/utils.py, lines 142 to 167).  Interval
mode drops the column slice df.columns[0:args[0]] or df.columns[args[0]:args[1]];
every other mode/arity drops the columns selected positionally by
df.columns[list(args)], through their names. -/
def remove_columns (args : List Nat) (mode : String) (df : Table) : Except PyErr Table :=
  if mode = "interval" ∧ args.length = 1 then
    .ok (df.dropColsByName (df.cols.take (args.headD 0)))
  else if mode = "interval" ∧ args.length = 2 then
    .ok (df.dropColsByName ((df.cols.take (args.getD 1 0)).drop (args.headD 0)))
  else
    match selectColNames df.cols args with
    | .ok names => .ok (df.dropColsByName names)
    | .error e => .error e

/-- Deletion of the listed 0-based positions from a list: the positional
reading of row removal used by the spec. -/
def posDelete {α : Type} (l : List α) (ps : List Nat) : List α :=
  ((l.enumFrom 0).filter (fun q => q.1 ∉ ps)).map Prod.snd

/-- The character-list form of Python str.strip(): drop leading whitespace,
then (through a reversal) trailing whitespace. -/
def stripData (l : List Char) : List Char :=
  ((l.dropWhile Char.isWhitespace).reverse.dropWhile Char.isWhitespace).reverse

/-- Embedding of Python str.strip(). -/
def pyStrip (s : String) : String := ⟨stripData s.data⟩

/-- Embedding of Python str.upper() for the ASCII range: map each lowercase
letter a..z to its uppercase counterpart and leave every other character
unchanged. -/
def upChar (c : Char) : Char :=
  if 97 ≤ c.toNat ∧ c.toNat ≤ 122 then Char.ofNat (c.toNat - 32) else c

/-- Embedding of Python str.upper() on whole strings. -/
def pyUpper (s : String) : String := ⟨s.data.map upChar⟩

/-- The string normalisation chain of clean_key after astype(str):
str.strip() then str.upper(). -/
def normStr (s : String) : String := pyUpper (pyStrip s)

/-- Python str() of a cell, as applied elementwise by Series.astype(str):
a string is itself, an integer prints in decimal, np.nan prints as "nan" and
pd.NA prints as "<NA>". -/
def Cell.toStr : Cell → String
  | .str s => s
  | .int n => toString n
  | .nan => "nan"
  | .na => "<NA>"

/-- Whether a cell is a missing value (np.nan or pd.NA), as detected by
Series.dropna. -/
def Cell.isMissing : Cell → Bool
  | .nan => true
  | .na => true
  | _ => false

/-- Whether a cell holds a string. -/
def Cell.isStr : Cell → Bool
  | .str _ => true
  | _ => false

/-- Whether a cell holds an integer. -/
def Cell.isInt : Cell → Bool
  | .int _ => true
  | _ => false

/-- Positions (in order) of the columns carrying the given name. -/
def colPositions (cols : List String) (c : String) : List Nat :=
  ((cols.enumFrom 0).filter (fun p => p.2 = c)).map Prod.fst

/-- The cell of a row at column position i (np.nan when the row is too
short, which a well-formed table never is). -/
def cellAt (r : Nat × List Cell) (i : Nat) : Cell := r.2.getD i Cell.nan

/-- Embedding of the validation performed by the pandas .str accessor on an
object column: the accessor is available when the inferred dtype of the
column (missing entries skipped) is string-like — the column has some string
cell, or no integer cell at all — and raises AttributeError on a purely
numeric column. -/
def strAccessorOk (cells : List Cell) : Bool :=
  cells.any Cell.isStr || cells.all (fun c => ! c.isInt)

/-- Per-cell embedding of .str.strip().isin(values): a string cell is trimmed
and compared against the values; every non-string cell has been turned into a
missing value by the .str accessor, and isin never matches a missing value
against a list of strings. -/
def stripIsin (c : Cell) (values : List String) : Bool :=
  match c with
  | .str s => pyStrip s ∈ values
  | _ => false

/-- Embedding of `filter_columns` (src/utils.py, lines 175 to 180).  The inner
transform_df evaluates df[df[column].str.strip().isin(values)].copy():
df[column] raises KeyError when the name is absent; the .str accessor raises
AttributeError when the name is duplicated (df[column] is then a DataFrame,
which has no .str) or when the column is purely numeric; otherwise the boolean
mask keeps exactly the rows whose trimmed string cell is among the values.
The Python variadic packing (several scalars, or one list/Series/set argument
expanded) is normalised into the single list `values`. -/
def filter_columns (column : String) (values : List String) (df : Table) :
    Except PyErr Table :=
  match colPositions df.cols column with
  | [] => .error .keyError
  | [i] =>
    if strAccessorOk (df.rows.map (fun r => cellAt r i)) then
      .ok { df with rows := df.rows.filter (fun r => stripIsin (cellAt r i) values) }
    else .error .attributeError
  | _ :: _ :: _ => .error .attributeError

/-- Embedding of pandas Series.unique(): emit the first occurrence of each
value, preserving first-seen order; `seen` accumulates the values already
emitted. -/
def pdUniqueGo (seen : List String) : List String → List String
  | [] => []
  | x :: xs => if x ∈ seen then pdUniqueGo seen xs else x :: pdUniqueGo (x :: seen) xs

/-- Series.unique() on a whole column. -/
def pdUnique (l : List String) : List String := pdUniqueGo [] l

/-- Embedding of df.loc[:, ~df.columns.duplicated()]: the kept (position,
name) pairs, in order — a position survives when its name has not occurred at
an earlier position. -/
def dedupKeep (cols : List String) : List (Nat × String) :=
  (cols.enumFrom 0).filter (fun p => p.2 ∉ cols.take p.1)

/-- Embedding of df = df.loc[:, ~df.columns.duplicated()].copy(): keep the
first column of each name, projecting every row accordingly. -/
def dedupCols (df : Table) : Table :=
  { cols := (dedupKeep df.cols).map Prod.snd,
    rows := df.rows.map (fun r => (r.1, (dedupKeep df.cols).map (fun p => r.2.getD p.1 Cell.nan))) }

/-- Embedding of the assignment df.columns = [str(c).strip() for c in df.columns]. -/
def stripCols (df : Table) : Table := { df with cols := df.cols.map pyStrip }

/-- The cleaned value list of the column at position i: its non-missing
cells, stringified and trimmed, in row order — the embedding of
df.loc[:, column].dropna().astype(str).str.strip(). -/
def cleanedValues (df : Table) (i : Nat) : List String :=
  ((df.rows.map (fun r => cellAt r i)).filter (fun c => ! c.isMissing)).map
    (fun c => pyStrip c.toStr)

/-- Embedding of `extract_column` (src/utils.py, lines 182 to 229).  The
pipeline drops duplicate-named columns keeping the first occurrence, strips
the column names, and raises KeyError when the requested column is then
absent; when the name still matches several columns (possible when the
original names differed only by surrounding whitespace) df.loc[:, column] is
a DataFrame and its .str accessor raises AttributeError; otherwise the column
values are dropna-ed, stringified, trimmed and de-duplicated preserving
first-seen order, and the mode filter keeps the values outside args (mode
not-in), the values inside args (mode in), or raises ValueError for any other
mode. -/
def extract_column_rest (column : String) (mode : String) (args : List String)
    (df2 : Table) : Except PyErr (List String) :=
  if column ∈ df2.cols then
    match colPositions df2.cols column with
    | [i] =>
      let unique_values := pdUnique (cleanedValues df2 i)
      if mode = "not-in" then .ok (unique_values.filter (fun t => t ∉ args))
      else if mode = "in" then .ok (unique_values.filter (fun t => t ∈ args))
      else .error .valueError
    | _ => .error .attributeError
  else .error .keyError

/-- The whole extract_column pipeline on a value: dedup, strip, then the rest. -/
def extract_column (column : String) (mode : String) (args : List String) (df : Table) :
    Except PyErr (List String) :=
  extract_column_rest column mode args (stripCols (dedupCols df))

/-- Normalisation of one cell by clean_key: astype(str), str.strip(),
str.upper(), then replacement of the literal results "NAN" and "NONE" by the
missing marker pd.NA. -/
def normCell (c : Cell) : Cell :=
  if normStr c.toStr = "NAN" then Cell.na
  else if normStr c.toStr = "NONE" then Cell.na
  else Cell.str (normStr c.toStr)

/-- One iteration of the clean_key loop: the in-place assignment
df[col] = df[col].astype(str).str.strip().str.upper() followed by the two
replace calls, for the single column at position i. -/
def normColAt (df : Table) (i : Nat) : Table :=
  { df with rows := df.rows.map (fun r => (r.1, r.2.set i (normCell (cellAt r i)))) }

/-- The loop of `clean_key` (src/utils.py, lines 231 to 259) over the
requested columns, acting on the local copy: KeyError when a requested column
is absent; AttributeError when a requested name is carried by several columns
(df[col] is then a DataFrame and .str fails); otherwise the column is
normalised cell by cell and the loop continues. -/
def clean_key_go : List String → Table → Except PyErr Table
  | [], df => .ok df
  | c :: rest, df =>
    if c ∈ df.cols then
      match colPositions df.cols c with
      | [i] => clean_key_go rest (normColAt df i)
      | _ => .error .attributeError
    else .error .keyError

/-- Embedding of `clean_key`: the transform copies the frame (df = df.copy())
and runs the per-column loop; a single string argument becomes the
one-element column list. -/
def clean_key (colList : List String) (df : Table) : Except PyErr Table :=
  clean_key_go colList df

/-- A five-row table with the default RangeIndex 0..4, as produced by
read_excel on a five-row sheet. -/
def tbl5 : Table :=
  ⟨["A"], [(0, [.int 1]), (1, [.int 2]), (2, [.int 3]), (3, [.int 4]), (4, [.int 5])]⟩

/-- A two-row table whose rows are labelled 1 and 2, as obtained after an
earlier transform removed the row labelled 0. -/
def shiftedTbl2 : Table := ⟨["A"], [(1, [.int 10]), (2, [.int 20])]⟩

/-- A five-row table whose rows are labelled 1..5 rather than 0..4. -/
def shiftedTbl5 : Table :=
  ⟨["A"], [(1, [.int 10]), (2, [.int 20]), (3, [.int 30]), (4, [.int 40]), (5, [.int 50])]⟩

/-- The five-row example table of the spec, with column B holding the strings
used by the filter_rows_by_value example. -/
def tblB : Table :=
  ⟨["A", "B", "C"],
   [(0, [.int 1, .str "  Varejo  ", .int 10]),
    (1, [.int 2, .str "Atacado", .int 20]),
    (2, [.int 3, .str " Varejo", .int 30]),
    (3, [.int 4, .str "Outro", .int 40]),
    (4, [.int 5, .str "Atacado", .int 50])]⟩

/-- A five-row single-column table of KAM names, matching the
extract_unique_values example of the spec. -/
def tblK : Table :=
  ⟨["KAM"], [(0, [.str " Ana "]), (1, [.str "A CLASSIFICAR"]), (2, [.str "Bruno"]),
             (3, [.nan]), (4, [.str "Ana"])]⟩

/-- Index of the last dot in a character list, if any. -/
def lastDot : List Char → Option Nat
  | [] => none
  | c :: t =>
    match lastDot t with
    | some i => some (i + 1)
    | none => if c = '.' then some 0 else none

/-- The final component of a path: the characters after the last slash. -/
def pathName (path : String) : List Char :=
  (path.data.reverse.takeWhile (fun c => c ≠ '/')).reverse

/-- Embedding of pathlib Path.suffix: the final path component's last suffix,
including the leading period; empty when the name has no dot strictly inside
it (name.rfind, kept only when 0 < i < len(name) - 1). -/
def pathSuffix (path : String) : String :=
  let name := pathName path
  match lastDot name with
  | some i => if 0 < i ∧ i < name.length - 1 then ⟨name.drop i⟩ else ""
  | none => ""

/-- Embedding of Python str.lower() for the ASCII range. -/
def lowChar (c : Char) : Char :=
  if 65 ≤ c.toNat ∧ c.toNat ≤ 90 then Char.ofNat (c.toNat + 32) else c

/-- Embedding of Python str.lower() on whole strings. -/
def pyLower (s : String) : String := ⟨s.data.map lowChar⟩

/-- The fixed extension-to-engine mapping of read_safe_excel. -/
def engines : List (String × String) :=
  [(".xlsx", "openpyxl"), (".xlsm", "openpyxl"), (".xls", "xlrd"), (".xlsb", "pyxlsb")]

/-- Lookup in the engine mapping. -/
def enginesFind (ext : String) : Option String :=
  (engines.find? (fun p => p.1 = ext)).map Prod.snd

/-- The observable outcome of a successful read_safe_excel call: the path
handed to pandas.read_excel, the engine keyword it receives (none lets pandas
run its own engine detection), and whether the unknown-extension warning was
emitted. -/
structure ReadCall where
  path : String
  engine : Option String
  warnedUnknownExt : Bool
deriving DecidableEq

/-- Embedding of `read_safe_excel` (src/utils.py, lines 73 to 113): validate
the file first (propagating the failure unchanged), lower-case the suffix of
the path, then fill in the engine keyword from the fixed mapping when the
extension is catalogued and no engine was supplied, warn and leave engine
detection to pandas when the extension is uncatalogued and no engine was
supplied, and keep a caller-supplied engine untouched.  The pandas read
itself is abstracted into the returned ReadCall. -/
def read_safe_excel (fs : Fs) (path : String) (engineKw : Option String) :
    Except PyErr ReadCall :=
  match validate_file fs path with
  | .error e => .error e
  | .ok _ =>
    let ext := pyLower (pathSuffix path)
    if (enginesFind ext).isSome ∧ engineKw = none then
      .ok ⟨path, enginesFind ext, false⟩
    else if engineKw = none then
      .ok ⟨path, none, true⟩
    else
      .ok ⟨path, engineKw, false⟩

/-- The kind of a configuration path field: pydantic FilePath or
DirectoryPath. -/
inductive FieldKind where
  | file
  | dir
deriving DecidableEq

/-- The eight required fields of the paths schema (PathConfig in
src/settings.py): seven FilePath fields and one DirectoryPath field. -/
def pathFields : List (String × FieldKind) :=
  [("base", .file), ("cadastro", .file), ("gka_por_segmento", .file),
   ("lista_gka", .file), ("portfolio", .file), ("oem", .file), ("sellin", .file),
   ("output_path", .dir)]

/-- Lookup of a field in the raw paths mapping parsed from the YAML file. -/
def lookupRaw (raw : List (String × String)) (f : String) : Option String :=
  (raw.find? (fun p => p.1 = f)).map Prod.snd

/-- Embedding of the pydantic validation of one field: a missing field is an
error; a FilePath value must name an existing file and a DirectoryPath value
an existing directory.  The message is the human-readable reason printed by
Settings.__init__, which rewords file-path errors. -/
def fieldError (fs : Fs) (raw : List (String × String)) (fld : String × FieldKind) :
    Option String :=
  match lookupRaw raw fld.1 with
  | none => some "Field required"
  | some v =>
    match fld.2 with
    | .file =>
      if v ∈ fs.files then none
      else some "Arquivo não encontrado no diretório especificado."
    | .dir =>
      if v ∈ fs.dirs then none
      else some "Path does not point to a directory"

/-- Embedding of pydantic error accumulation: the (field, message) pairs of
every failing field, in schema order — ValidationError.errors() carries all
of them, not only the first. -/
def collectErrors (fs : Fs) (raw : List (String × String)) : List (String × String) :=
  pathFields.filterMap (fun fld => (fieldError fs raw fld).map (fun m => (fld.1, m)))

/-- The validated path configuration (PathConfig in src/settings.py). -/
structure PathConfig where
  base : String
  cadastro : String
  gka_por_segmento : String
  lista_gka : String
  portfolio : String
  oem : String
  sellin : String
  output_path : String
deriving DecidableEq

/-- Embedding of PathConfig(**raw): pydantic validates every field, raising a
ValidationError carrying all the per-field errors when any fails, and
constructs the model only when none fails. -/
def validatePaths (fs : Fs) (raw : List (String × String)) :
    Except (List (String × String)) PathConfig :=
  if collectErrors fs raw = [] then
    .ok { base := (lookupRaw raw "base").getD "",
          cadastro := (lookupRaw raw "cadastro").getD "",
          gka_por_segmento := (lookupRaw raw "gka_por_segmento").getD "",
          lista_gka := (lookupRaw raw "lista_gka").getD "",
          portfolio := (lookupRaw raw "portfolio").getD "",
          oem := (lookupRaw raw "oem").getD "",
          sellin := (lookupRaw raw "sellin").getD "",
          output_path := (lookupRaw raw "output_path").getD "" }
  else .error (collectErrors fs raw)

/-- The parsed content of config.yaml that Settings.__init__ consumes: the
paths mapping and the optional ui.colors and outputs.file_name lists. -/
structure RawCfg where
  paths : List (String × String)
  colors : List String
  fileNames : List String

/-- The outcome of Settings.__init__ (src/settings.py, lines 29 to 59):
either a fully validated configuration, or the RuntimeError for a missing
config file, or the RuntimeError raised after printing every (field, message)
validation error. -/
inductive LoadResult where
  | ok (paths : PathConfig) (colors : List String) (fileNames : List String)
  | configNotFound
  | validationFailure (errs : List (String × String))
deriving DecidableEq

/-- Embedding of Settings.__init__: a missing config file raises RuntimeError
before any parsing; otherwise PathConfig(**raw.get('paths', {})) either
validates — yielding the Settings object together with ui.colors and
outputs.file_name — or raises ValidationError, whose errors are printed field
by field before RuntimeError aborts construction; no partial Settings object
escapes. -/
def settings_init (fs : Fs) (cfg : Option RawCfg) : LoadResult :=
  match cfg with
  | none => .configNotFound
  | some raw =>
    match validatePaths fs raw.paths with
    | .ok pc => .ok pc raw.colors raw.fileNames
    | .error errs => .validationFailure errs

/-- Embedding of `rename_columns` (src/utils.py, lines 169 to 173): the inner
transform_df returns df.set_axis(list(args), axis=1), a new frame carrying
the given column names in positional order; pandas raises ValueError when the
number of names does not match the number of columns. -/
def rename_columns (args : List String) (df : Table) : Except PyErr Table :=
  if args.length = df.cols.length then .ok { df with cols := args }
  else .error .valueError

/-- A heap of the live DataFrame objects: a Python reference is an index into
the store.  Used to express which frames a transform body writes to. -/
abbrev Store := List Table

/-- Dereference a store index. -/
def Store.getT (s : Store) (r : Nat) : Table := s.getD r ⟨[], []⟩

/-- In-place update of the object at a store index. -/
def Store.setT (s : Store) (r : Nat) (t : Table) : Store := s.set r t

/-- Execution of the remove_lines transform body against the store: it only
evaluates df.drop(...), which returns a NEW frame and leaves df untouched
(DataFrame.drop mutates only with inplace=True, never passed here), so the
store comes back unchanged alongside the result value. -/
def remove_lines_exec (args : List Nat) (mode : String) (s : Store) (r : Nat) :
    Store × Except PyErr Table :=
  (s, remove_lines args mode (s.getT r))

/-- Execution of the remove_columns transform body: df.drop(..., axis=1)
likewise returns a new frame without writing to df. -/
def remove_columns_exec (args : List Nat) (mode : String) (s : Store) (r : Nat) :
    Store × Except PyErr Table :=
  (s, remove_columns args mode (s.getT r))

/-- Execution of the rename_columns transform body: df.set_axis returns a new
frame (its inplace/copy behaviour is not requested here), df is not written. -/
def rename_columns_exec (args : List String) (s : Store) (r : Nat) :
    Store × Except PyErr Table :=
  (s, rename_columns args (s.getT r))

/-- Execution of the filter_columns transform body: boolean-mask selection
builds a new frame and .copy() copies it; df itself is never written. -/
def filter_columns_exec (column : String) (values : List String) (s : Store) (r : Nat) :
    Store × Except PyErr Table :=
  (s, filter_columns column values (s.getT r))

/-- Execution of the extract_column body: the local name df is rebound to the
fresh frame df.loc[:, ~df.columns.duplicated()].copy(), allocated at the end
of the store; the assignment df.columns = [...] then mutates THAT fresh frame
in place; the caller's frame is never written. -/
def extract_column_exec (column mode : String) (args : List String) (s : Store) (r : Nat) :
    Store × Except PyErr (List String) :=
  let s1 := s ++ [dedupCols (s.getT r)]
  let c := s.length
  let s2 := s1.setT c (stripCols (s1.getT c))
  (s2, extract_column_rest column mode args (s2.getT c))

/-- The loop of clean_key acting on the store: each iteration checks the
column and performs the in-place assignment df[col] = ... on the frame at
index c — the local copy — and only there. -/
def clean_key_loop : List String → Store → Nat → Store × Except PyErr Nat
  | [], s, c => (s, .ok c)
  | col :: rest, s, c =>
    if col ∈ (s.getT c).cols then
      match colPositions (s.getT c).cols col with
      | [i] => clean_key_loop rest (s.setT c (normColAt (s.getT c) i)) c
      | _ => (s, .error .attributeError)
    else (s, .error .keyError)

/-- Execution of the clean_key body: df = df.copy() allocates a fresh frame
at the end of the store, and the loop writes only to that fresh frame. -/
def clean_key_exec (colList : List String) (s : Store) (r : Nat) :
    Store × Except PyErr Nat :=
  clean_key_loop colList (s ++ [s.getT r]) s.length

/-- A filesystem holding every configured path except the base file and the
sellin file. -/
def cfgFs : Fs := ⟨["c", "g", "l", "p", "o"], ["out"], []⟩

/-- A raw configuration that omits the base field and points sellin at a
nonexistent file. -/
def cfgRaw : RawCfg :=
  ⟨[("cadastro", "c"), ("gka_por_segmento", "g"), ("lista_gka", "l"),
    ("portfolio", "p"), ("oem", "o"), ("sellin", "missing"), ("output_path", "out")],
   ["blue"], ["out.xlsx"]⟩

/- ===================== Theorems ===================== -/

/-- C4: current_period satisfies the three-branch rule for every month in 1..12
(month 4 gives "1", month >= 5 gives str(month - 3), month in 1..3 gives
str(month + 9)) and fails with InvalidArgument (ValueError) for every month
outside 1..12. -/
theorem current_ano_safra_three_branch (month : Int) :
    (month = 4 → current_ano_safra month = .ok "1") ∧
    (5 ≤ month → month ≤ 12 → current_ano_safra month = .ok (toString (month - 3))) ∧
    (1 ≤ month → month ≤ 3 → current_ano_safra month = .ok (toString (month + 9))) ∧
    ((month < 1 ∨ 12 < month) → current_ano_safra month = .error .valueError) := by
  unfold current_ano_safra
  refine ⟨fun h => ?_, fun h1 h2 => ?_, fun h1 h2 => ?_, fun h => ?_⟩
  · subst h; decide
  · rw [if_neg (by omega), if_neg (by omega), if_pos h1]
  · rw [if_neg (by omega), if_neg (by omega), if_neg (by omega)]
  · rw [if_pos (by omega)]

/-- Witness for C4 at the concrete months named by the spec. -/
theorem current_ano_safra_three_branch_witness :
    current_ano_safra 4 = .ok "1" ∧ current_ano_safra 9 = .ok "6" ∧
    current_ano_safra 1 = .ok "10" ∧ current_ano_safra 13 = .error .valueError := by
  refine ⟨(current_ano_safra_three_branch 4).1 rfl, ?_, ?_, ?_⟩
  · exact ((current_ano_safra_three_branch 9).2.1 (by decide) (by decide)).trans (by decide)
  · exact ((current_ano_safra_three_branch 1).2.2.1 (by decide) (by decide)).trans (by decide)
  · exact (current_ano_safra_three_branch 13).2.2.2 (by decide)

/-- C9: validate_file fails with FileNotFound for every nonexistent path, fails
with PermissionDenied for every existing but unreadable path, and returns True
for every existing readable path. -/
theorem validate_file_guard (fs : Fs) (path : String) :
    (¬ (path ∈ fs.files ∨ path ∈ fs.dirs) →
      validate_file fs path = .error .fileNotFoundError) ∧
    ((path ∈ fs.files ∨ path ∈ fs.dirs) → path ∉ fs.readable →
      validate_file fs path = .error .permissionError) ∧
    ((path ∈ fs.files ∨ path ∈ fs.dirs) → path ∈ fs.readable →
      validate_file fs path = .ok true) := by
  unfold validate_file
  refine ⟨fun h => ?_, fun h1 h2 => ?_, fun h1 h2 => ?_⟩
  · rw [if_pos h]
  · rw [if_neg (not_not_intro h1), if_pos h2]
  · rw [if_neg (not_not_intro h1), if_neg (not_not_intro h2)]

/-- Witness for C9 on a three-path concrete filesystem. -/
theorem validate_file_guard_witness :
    validate_file ⟨["a"], [], ["a"]⟩ "a" = .ok true ∧
    validate_file ⟨["a"], [], ["a"]⟩ "b" = .error .fileNotFoundError ∧
    validate_file ⟨["a"], [], []⟩ "a" = .error .permissionError := by
  refine ⟨?_, ?_, ?_⟩
  · exact (validate_file_guard ⟨["a"], [], ["a"]⟩ "a").2.2 (by decide) (by decide)
  · exact (validate_file_guard ⟨["a"], [], ["a"]⟩ "b").1 (by decide)
  · exact (validate_file_guard ⟨["a"], [], []⟩ "a").2.1 (by decide) (by decide)

/-- Membership in the embedded Python range. -/
theorem mem_pyRange {a b x : Nat} : x ∈ pyRange a b ↔ a ≤ x ∧ x < b := by
  unfold pyRange
  simp only [List.mem_map, List.mem_range]
  constructor
  · rintro ⟨i, hi, rfl⟩; omega
  · rintro ⟨h1, h2⟩; exact ⟨x - a, by omega, by omega⟩

/-- On rows whose labels form the contiguous range starting at k, filtering
out the listed labels is the same as deleting the listed positions (shifted
by k). -/
theorem filter_label_eq_enum (rows : List (Nat × List Cell)) (k : Nat) (ps : List Nat)
    (h : rows.map Prod.fst = List.range' k rows.length) :
    rows.filter (fun r => r.1 ∉ ps) =
      ((rows.enumFrom k).filter (fun q => q.1 ∉ ps)).map Prod.snd := by
  induction rows generalizing k with
  | nil => rfl
  | cons r rs ih =>
    simp only [List.map_cons, List.length_cons, List.range'_succ, List.cons.injEq] at h
    obtain ⟨h1, h2⟩ := h
    rw [List.enumFrom_cons]
    by_cases hm : r.1 ∈ ps
    · rw [List.filter_cons_of_neg (by simpa using hm),
        List.filter_cons_of_neg (by simp [← h1, hm])]
      exact ih (k + 1) h2
    · rw [List.filter_cons_of_pos (by simpa using hm),
        List.filter_cons_of_pos (by simp [← h1, hm]), List.map_cons]
      exact congrArg (r :: ·) (ih (k + 1) h2)

/-- On rows whose labels form the contiguous range starting at k, filtering
out the labels of [a, b) keeps exactly the prefix before position a - k and
the suffix from position b - k. -/
theorem filter_range_eq_take_drop (rows : List (Nat × List Cell)) :
    ∀ k a b : Nat, rows.map Prod.fst = List.range' k rows.length → k ≤ a → a ≤ b →
      rows.filter (fun r => r.1 ∉ pyRange a b) = rows.take (a - k) ++ rows.drop (b - k) := by
  induction rows with
  | nil => intro k a b _ _ _; simp
  | cons r rs ih =>
    intro k a b h hka hab
    simp only [List.map_cons, List.length_cons, List.range'_succ, List.cons.injEq] at h
    obtain ⟨h1, h2⟩ := h
    by_cases hlt : k < a
    · have hnot : r.1 ∉ pyRange a b := by rw [h1, mem_pyRange]; omega
      rw [List.filter_cons_of_pos (by simpa using hnot)]
      have ha : a - k = (a - (k + 1)) + 1 := by omega
      have hb : b - k = (b - (k + 1)) + 1 := by omega
      rw [ha, hb, List.take_succ_cons, List.drop_succ_cons, List.cons_append]
      exact congrArg (r :: ·) (ih (k + 1) a b h2 (by omega) hab)
    · have hk : k = a := by omega
      by_cases hbb : a < b
      · have hmem : r.1 ∈ pyRange a b := by rw [h1, mem_pyRange]; omega
        rw [List.filter_cons_of_neg (by simpa using hmem)]
        have hcong : rs.filter (fun r => r.1 ∉ pyRange a b) =
            rs.filter (fun r => r.1 ∉ pyRange (k + 1) b) := by
          apply List.filter_congr
          intro x hx
          have hx1 : x.1 ∈ List.range' (k + 1) rs.length := by
            rw [← h2]; exact List.mem_map_of_mem Prod.fst hx
          rw [List.mem_range'] at hx1
          obtain ⟨i, hi, hxi⟩ := hx1
          simp only [decide_eq_decide, mem_pyRange]
          omega
        rw [hcong, ih (k + 1) (k + 1) b h2 (by omega) (by omega)]
        have ha0 : a - k = 0 := by omega
        have hb' : b - k = (b - (k + 1)) + 1 := by omega
        have ha0' : k + 1 - (k + 1) = 0 := by omega
        rw [ha0, hb', List.drop_succ_cons, ha0']
        simp
      · have hempty : pyRange a b = [] := by
          unfold pyRange
          have : b - a = 0 := by omega
          rw [this]; rfl
        have hall : (r :: rs).filter (fun r => r.1 ∉ pyRange a b) = r :: rs := by
          rw [hempty]
          simp
        rw [hall]
        have : a - k = 0 := by omega
        have hbk : b - k = 0 := by omega
        rw [this, hbk, List.take_zero, List.drop_zero, List.nil_append]

/-- C1 (amended): the Transform returned by remove_rows deletes rows by INDEX
LABEL — individual mode removes exactly the rows whose label is listed
(KeyError when a listed label is absent), interval mode with one index n
removes the labels of range(0, n), with two indices a, b the labels of
range(a, b) — and when the table carries the default index 0..len-1 these
label deletions coincide with the positional deletions stated by the claim:
individual mode deletes the listed positions, one index n deletes positions
[0, n), two indices delete positions [a, b). -/
theorem remove_lines_by_label (df : Table) (ps : List Nat) (n a b : Nat) :
    (remove_lines ps "individual" df = df.dropLabels ps) ∧
    (remove_lines [n] "interval" df = df.dropLabels (pyRange 0 n)) ∧
    (remove_lines [a, b] "interval" df = df.dropLabels (pyRange a b)) ∧
    (df.index = List.range df.rows.length →
      ((∀ p ∈ ps, p < df.rows.length) →
        remove_lines ps "individual" df = .ok ⟨df.cols, posDelete df.rows ps⟩) ∧
      (n ≤ df.rows.length →
        remove_lines [n] "interval" df = .ok ⟨df.cols, df.rows.drop n⟩) ∧
      (a ≤ b → b ≤ df.rows.length →
        remove_lines [a, b] "interval" df =
          .ok ⟨df.cols, df.rows.take a ++ df.rows.drop b⟩)) := by
  have hmode : ¬ ("individual" : String) = "interval" := by decide
  have hind : remove_lines ps "individual" df = df.dropLabels ps := by
    unfold remove_lines
    rw [if_neg (fun hc => hmode hc.1), if_neg (fun hc => hmode hc.1)]
  have hone : remove_lines [n] "interval" df = df.dropLabels (pyRange 0 n) := by
    unfold remove_lines
    rw [if_pos ⟨rfl, rfl⟩]
    rfl
  have htwo : remove_lines [a, b] "interval" df = df.dropLabels (pyRange a b) := by
    unfold remove_lines
    rw [if_neg (fun hc => by simpa using hc.2), if_pos ⟨rfl, rfl⟩]
    rfl
  refine ⟨hind, hone, htwo, fun hidx => ?_⟩
  have hmap : df.rows.map Prod.fst = List.range' 0 df.rows.length := by
    rw [← List.range_eq_range']; exact hidx
  refine ⟨fun hp => ?_, fun hn => ?_, fun hab hb => ?_⟩
  · rw [hind]
    unfold Table.dropLabels
    rw [if_pos (fun l hl => by rw [hidx, List.mem_range]; exact hp l hl)]
    exact congrArg (fun x => Except.ok (⟨df.cols, x⟩ : Table))
      (filter_label_eq_enum df.rows 0 ps hmap)
  · rw [hone]
    unfold Table.dropLabels
    rw [if_pos (fun l hl => by
      rw [hidx, List.mem_range]
      have := mem_pyRange.mp hl
      omega)]
    have hfil := filter_range_eq_take_drop df.rows 0 0 n hmap (le_refl 0) (Nat.zero_le n)
    simp only [Nat.sub_zero, List.take_zero, List.nil_append] at hfil
    exact congrArg (fun x => Except.ok (⟨df.cols, x⟩ : Table)) hfil
  · rw [htwo]
    unfold Table.dropLabels
    rw [if_pos (fun l hl => by
      rw [hidx, List.mem_range]
      have := mem_pyRange.mp hl
      omega)]
    have hfil := filter_range_eq_take_drop df.rows 0 a b hmap (Nat.zero_le a) hab
    simp only [Nat.sub_zero] at hfil
    exact congrArg (fun x => Except.ok (⟨df.cols, x⟩ : Table)) hfil

/-- Witness for C1 at the spec example: remove_rows(2, mode=interval) on a
five-row table with the default index leaves three rows, the first of which is
the original row at position 2. -/
theorem remove_lines_by_label_witness :
    remove_lines [2] "interval" tbl5 =
      .ok ⟨["A"], [(2, [.int 3]), (3, [.int 4]), (4, [.int 5])]⟩ := by
  have h := ((remove_lines_by_label tbl5 [] 2 0 0).2.2.2 (by decide)).2.1 (by decide)
  exact h.trans (by decide)

/-- Counterexample to C1 as stated: on a table whose current rows are labelled
1 and 2 (the current ordering after an earlier removal of row 0),
remove_rows(1) removes the row LABELLED 1, which sits at position 0, and keeps
the row at position 1 — whereas the claim requires the row at position 1 to be
deleted and the row at position 0 to be kept, which would leave the row
labelled 1. -/
theorem remove_lines_position_cex :
    remove_lines [1] "individual" shiftedTbl2 = .ok ⟨["A"], [(2, [.int 20])]⟩ ∧
    (⟨["A"], [(2, [.int 20])]⟩ : Table) ≠ ⟨["A"], [(1, [.int 10])]⟩ := by decide

/-- A column name is absent exactly when it has no positions. -/
theorem colPositions_eq_nil {cols : List String} {c : String} :
    colPositions cols c = [] ↔ c ∉ cols := by
  unfold colPositions
  rw [List.map_eq_nil_iff, List.filter_eq_nil_iff]
  constructor
  · intro h hc
    rw [← List.enumFrom_map_snd 0 cols] at hc
    obtain ⟨p, hp, hpc⟩ := List.mem_map.mp hc
    exact h p hp (by simpa using hpc)
  · intro h p hp
    simp only [decide_eq_true_eq]
    intro hpc
    apply h
    rw [← List.enumFrom_map_snd 0 cols]
    exact List.mem_map.mpr ⟨p, hp, hpc⟩

/-- C6 (amended): filter_rows_by_value fails with ColumnNotFound when the
column is absent at apply time; when the column occurs exactly once and the
pandas string accessor applies to it (the column holds some string cell, or no
integer cell), the Transform keeps — with the columns unchanged and the row
order preserved — exactly the rows whose value in that column is a STRING
whose trimmed form equals one of the given values; rows holding missing or
non-string values are dropped.  On a purely numeric column the code instead
fails with AttributeError (see the counterexample). -/
theorem filter_columns_semantics (df : Table) (column : String) (values : List String) :
    (column ∉ df.cols → filter_columns column values df = .error .keyError) ∧
    (∀ i, colPositions df.cols column = [i] →
      strAccessorOk (df.rows.map (fun r => cellAt r i)) = true →
      filter_columns column values df =
        .ok ⟨df.cols, df.rows.filter (fun r => stripIsin (cellAt r i) values)⟩ ∧
      (df.rows.filter (fun r => stripIsin (cellAt r i) values)).Sublist df.rows ∧
      (∀ r, r ∈ df.rows.filter (fun r => stripIsin (cellAt r i) values) ↔
        r ∈ df.rows ∧ ∃ s, cellAt r i = Cell.str s ∧ pyStrip s ∈ values)) := by
  constructor
  · intro h
    unfold filter_columns
    rw [colPositions_eq_nil.mpr h]
  · intro i hpos hok
    refine ⟨?_, List.filter_sublist df.rows, ?_⟩
    · simp only [filter_columns, hpos, hok, if_true]
    · intro r
      rw [List.mem_filter]
      constructor
      · rintro ⟨hr, hs⟩
        refine ⟨hr, ?_⟩
        cases hc : cellAt r i with
        | str s => rw [hc] at hs; exact ⟨s, rfl, by simpa [stripIsin] using hs⟩
        | int n => rw [hc] at hs; simp [stripIsin] at hs
        | nan => rw [hc] at hs; simp [stripIsin] at hs
        | na => rw [hc] at hs; simp [stripIsin] at hs
      · rintro ⟨hr, s, hc, hv⟩
        refine ⟨hr, ?_⟩
        rw [hc]
        simpa [stripIsin] using hv

/-- Witness for C6 at the spec example: filtering column B for Varejo/Atacado
on the five-row example table succeeds and keeps the four matching rows. -/
theorem filter_columns_semantics_witness :
    filter_columns "B" ["Varejo", "Atacado"] tblB =
      .ok ⟨tblB.cols, tblB.rows.filter (fun r => stripIsin (cellAt r 1) ["Varejo", "Atacado"])⟩ :=
  ((filter_columns_semantics tblB "B" ["Varejo", "Atacado"]).2 1 (by decide) (by decide)).1

/-- Counterexample to C6 as stated: on a table that contains the named column
but whose column B is purely numeric, the pandas .str accessor raises
AttributeError, so the transform fails — while the claim allows a failure only
when the column is absent, and otherwise requires a filtered table. -/
theorem filter_columns_numeric_cex :
    filter_columns "B" ["1"] ⟨["B"], [(0, [.int 1]), (1, [.int 2])]⟩ =
      .error .attributeError := by decide

/-- Dropping while a predicate holds is idempotent. -/
theorem dropWhile_idem {α : Type} (p : α → Bool) (l : List α) :
    (l.dropWhile p).dropWhile p = l.dropWhile p := by
  induction l with
  | nil => rfl
  | cons c t ih =>
    rw [List.dropWhile_cons]
    by_cases h : p c = true
    · rw [if_pos h]; exact ih
    · rw [if_neg h, List.dropWhile_cons, if_neg h]

/-- The head surviving dropWhile fails the predicate. -/
theorem dropWhile_head?_false {α : Type} (p : α → Bool) (l : List α) {c : α}
    (h : (l.dropWhile p).head? = some c) : p c = false := by
  induction l with
  | nil => simp at h
  | cons d t ih =>
    rw [List.dropWhile_cons] at h
    by_cases hp : p d = true
    · rw [if_pos hp] at h; exact ih h
    · rw [if_neg hp] at h
      simp only [List.head?_cons, Option.some.injEq] at h
      rw [← h]
      simpa using hp

/-- dropWhile does not change the last element when its result is nonempty. -/
theorem dropWhile_getLast? {α : Type} (p : α → Bool) (l : List α)
    (h : l.dropWhile p ≠ []) : (l.dropWhile p).getLast? = l.getLast? := by
  induction l with
  | nil => exact absurd rfl h
  | cons c t ih =>
    rw [List.dropWhile_cons] at h ⊢
    by_cases hp : p c = true
    · rw [if_pos hp] at h ⊢
      rw [ih h]
      have ht : t ≠ [] := by
        intro hte
        rw [hte] at h
        exact h rfl
      cases t with
      | nil => exact absurd rfl ht
      | cons d u => exact (List.getLast?_cons_cons).symm
    · rw [if_neg hp]

/-- A list whose head fails the predicate is unchanged by dropWhile. -/
theorem dropWhile_eq_self {α : Type} (p : α → Bool) {l : List α}
    (h : ∀ c, l.head? = some c → p c = false) : l.dropWhile p = l := by
  cases l with
  | nil => rfl
  | cons c t => rw [List.dropWhile_cons, if_neg (by simp [h c rfl])]

/-- stripData leaves no leading whitespace. -/
theorem dropWhile_stripData (l : List Char) :
    (stripData l).dropWhile Char.isWhitespace = stripData l := by
  apply dropWhile_eq_self
  intro c hc
  unfold stripData at hc
  rw [List.head?_reverse] at hc
  have hne : (List.dropWhile Char.isWhitespace
      (List.dropWhile Char.isWhitespace l).reverse) ≠ [] := by
    intro he
    rw [he] at hc
    simp at hc
  rw [dropWhile_getLast? _ _ hne, List.getLast?_reverse] at hc
  exact dropWhile_head?_false _ _ hc

/-- stripData leaves no trailing whitespace. -/
theorem dropWhile_reverse_stripData (l : List Char) :
    (stripData l).reverse.dropWhile Char.isWhitespace = (stripData l).reverse := by
  unfold stripData
  rw [List.reverse_reverse]
  exact dropWhile_idem _ _

/-- Stripping is idempotent. -/
theorem stripData_idem (l : List Char) : stripData (stripData l) = stripData l := by
  show (((stripData l).dropWhile Char.isWhitespace).reverse.dropWhile
      Char.isWhitespace).reverse = stripData l
  rw [dropWhile_stripData, dropWhile_reverse_stripData, List.reverse_reverse]

/-- The uppercase image of an ASCII lowercase letter has its code point
shifted down by 32. -/
theorem toNat_upChar_of_lower {c : Char} (h1 : 97 ≤ c.toNat) (h2 : c.toNat ≤ 122) :
    (upChar c).toNat = c.toNat - 32 := by
  unfold upChar
  rw [if_pos ⟨h1, h2⟩]
  have hv : (c.toNat - 32).isValidChar := Or.inl (by omega)
  unfold Char.ofNat
  rw [dif_pos hv]
  rfl

/-- upChar leaves a character outside a..z unchanged. -/
theorem upChar_eq_self_of_not_lower {c : Char} (h : ¬ (97 ≤ c.toNat ∧ c.toNat ≤ 122)) :
    upChar c = c := by
  unfold upChar
  rw [if_neg h]

/-- The code point of a whitespace character. -/
theorem toNat_of_isWhitespace {x : Char} (hx : x.isWhitespace = true) :
    x.toNat = 32 ∨ x.toNat = 9 ∨ x.toNat = 13 ∨ x.toNat = 10 := by
  unfold Char.isWhitespace at hx
  simp only [Bool.or_eq_true, decide_eq_true_eq] at hx
  rcases hx with ((h | h) | h) | h <;> rw [h] <;> decide

/-- A character with code point at least 33 is not whitespace. -/
theorem isWhitespace_eq_false_of_toNat {x : Char} (h : 33 ≤ x.toNat) :
    x.isWhitespace = false := by
  cases hw : x.isWhitespace with
  | false => rfl
  | true =>
    have := toNat_of_isWhitespace hw
    omega

/-- Upper-casing does not change whether a character is whitespace. -/
theorem isWhitespace_upChar (c : Char) : (upChar c).isWhitespace = c.isWhitespace := by
  by_cases h : 97 ≤ c.toNat ∧ c.toNat ≤ 122
  · have h1 : (upChar c).toNat = c.toNat - 32 := toNat_upChar_of_lower h.1 h.2
    rw [isWhitespace_eq_false_of_toNat (by omega), isWhitespace_eq_false_of_toNat (by omega)]
  · rw [upChar_eq_self_of_not_lower h]

/-- Upper-casing a character is idempotent. -/
theorem upChar_idem (c : Char) : upChar (upChar c) = upChar c := by
  by_cases h : 97 ≤ c.toNat ∧ c.toNat ≤ 122
  · have h1 := toNat_upChar_of_lower h.1 h.2
    exact upChar_eq_self_of_not_lower (by omega)
  · rw [upChar_eq_self_of_not_lower h]
    exact upChar_eq_self_of_not_lower h

/-- Upper-casing commutes with dropping leading whitespace. -/
theorem dropWhile_map_upChar (l : List Char) :
    (l.map upChar).dropWhile Char.isWhitespace =
      (l.dropWhile Char.isWhitespace).map upChar := by
  induction l with
  | nil => rfl
  | cons c t ih =>
    rw [List.map_cons, List.dropWhile_cons, List.dropWhile_cons, isWhitespace_upChar]
    by_cases h : c.isWhitespace = true
    · rw [if_pos h, if_pos h]; exact ih
    · rw [if_neg h, if_neg h, List.map_cons]

/-- Upper-casing commutes with stripping. -/
theorem stripData_map_upChar (l : List Char) :
    stripData (l.map upChar) = (stripData l).map upChar := by
  unfold stripData
  rw [dropWhile_map_upChar, ← List.map_reverse, dropWhile_map_upChar, ← List.map_reverse]

/-- The strip-then-upper normalisation of clean_key is idempotent on
strings. -/
theorem normStr_idem (s : String) : normStr (normStr s) = normStr s := by
  show (⟨(stripData ((stripData s.data).map upChar)).map upChar⟩ : String) =
    ⟨(stripData s.data).map upChar⟩
  rw [stripData_map_upChar, stripData_idem, List.map_map]
  exact congrArg String.mk (List.map_congr_left (fun a _ => upChar_idem a))

/-- Membership in the unique-with-accumulator computation. -/
theorem mem_pdUniqueGo {x : String} : ∀ (l seen : List String),
    x ∈ pdUniqueGo seen l ↔ x ∈ l ∧ x ∉ seen := by
  intro l
  induction l with
  | nil => intro seen; simp [pdUniqueGo]
  | cons y ys ih =>
    intro seen
    unfold pdUniqueGo
    by_cases hy : y ∈ seen
    · rw [if_pos hy, ih seen, List.mem_cons]
      constructor
      · rintro ⟨h1, h2⟩
        exact ⟨Or.inr h1, h2⟩
      · rintro ⟨rfl | h1, h2⟩
        · exact absurd hy h2
        · exact ⟨h1, h2⟩
    · rw [if_neg hy, List.mem_cons, ih (y :: seen)]
      simp only [List.mem_cons, not_or]
      constructor
      · rintro (rfl | ⟨h1, h2, h3⟩)
        · exact ⟨Or.inl rfl, hy⟩
        · exact ⟨Or.inr h1, h3⟩
      · rintro ⟨rfl | h1, h2⟩
        · exact Or.inl rfl
        · by_cases hxy : x = y
          · exact Or.inl hxy
          · exact Or.inr ⟨h1, hxy, h2⟩

/-- The unique-with-accumulator computation never repeats a value. -/
theorem pdUniqueGo_nodup : ∀ (l seen : List String), (pdUniqueGo seen l).Nodup := by
  intro l
  induction l with
  | nil => intro seen; simp [pdUniqueGo]
  | cons y ys ih =>
    intro seen
    unfold pdUniqueGo
    by_cases hy : y ∈ seen
    · rw [if_pos hy]; exact ih seen
    · rw [if_neg hy, List.nodup_cons]
      refine ⟨fun hc => ?_, ih (y :: seen)⟩
      rw [mem_pdUniqueGo] at hc
      exact hc.2 (List.mem_cons_self y seen)

/-- The unique-with-accumulator computation preserves order. -/
theorem pdUniqueGo_sublist : ∀ (l seen : List String), (pdUniqueGo seen l).Sublist l := by
  intro l
  induction l with
  | nil => intro seen; simp [pdUniqueGo]
  | cons y ys ih =>
    intro seen
    unfold pdUniqueGo
    by_cases hy : y ∈ seen
    · rw [if_pos hy]
      exact (ih seen).trans (List.sublist_cons_self y ys)
    · rw [if_neg hy]
      exact List.Sublist.cons₂ y (ih (y :: seen))

/-- Membership in Series.unique(). -/
theorem mem_pdUnique {x : String} {l : List String} : x ∈ pdUnique l ↔ x ∈ l := by
  rw [pdUnique, mem_pdUniqueGo]
  simp

/-- Series.unique() never repeats a value. -/
theorem pdUnique_nodup (l : List String) : (pdUnique l).Nodup := pdUniqueGo_nodup l []

/-- Series.unique() preserves first-seen order. -/
theorem pdUnique_sublist (l : List String) : (pdUnique l).Sublist l := pdUniqueGo_sublist l []

/-- C8: read_safe_excel calls validate_file first and propagates its failures
unchanged; it fills the reader engine keyword from the fixed extension mapping
(.xlsx/.xlsm to openpyxl, .xls to xlrd, .xlsb to pyxlsb) unless an engine was
explicitly supplied in the options; a supplied engine is passed through
untouched without a warning; and exactly when the lower-cased extension is
unrecognised and no engine was supplied it emits the warning and leaves
engine selection to the reading library (engine keyword absent). -/
theorem read_safe_excel_spec (fs : Fs) (path : String) (engineKw : Option String) :
    (∀ e, validate_file fs path = .error e →
      read_safe_excel fs path engineKw = .error e) ∧
    (validate_file fs path = .ok true →
      (∀ g, enginesFind (pyLower (pathSuffix path)) = some g → engineKw = none →
        read_safe_excel fs path engineKw = .ok ⟨path, some g, false⟩) ∧
      (∀ g, engineKw = some g →
        read_safe_excel fs path engineKw = .ok ⟨path, some g, false⟩) ∧
      (enginesFind (pyLower (pathSuffix path)) = none → engineKw = none →
        read_safe_excel fs path engineKw = .ok ⟨path, none, true⟩)) := by
  refine ⟨fun e he => ?_, fun hok => ⟨fun g hg hn => ?_, fun g hg => ?_, fun hg hn => ?_⟩⟩
  · unfold read_safe_excel
    rw [he]
  all_goals unfold read_safe_excel
  all_goals rw [hok]
  all_goals show (if (enginesFind (pyLower (pathSuffix path))).isSome ∧ engineKw = none then
      Except.ok (⟨path, enginesFind (pyLower (pathSuffix path)), false⟩ : ReadCall)
    else if engineKw = none then Except.ok (⟨path, none, true⟩ : ReadCall)
    else Except.ok (⟨path, engineKw, false⟩ : ReadCall)) = _
  · rw [hg, if_pos ⟨rfl, hn⟩]
  · rw [if_neg (fun hc => by rw [hg] at hc; exact Option.noConfusion hc.2),
      if_neg (fun hc => by rw [hg] at hc; exact Option.noConfusion hc), hg]
  · rw [if_neg (fun hc => by rw [hg] at hc; simpa using hc.1), if_pos hn]

/-- Witness for C8: a catalogued upper-cased extension fills in openpyxl, an
uncatalogued extension with no supplied engine warns and leaves the engine
out, and a nonexistent path propagates FileNotFound from validate_file. -/
theorem read_safe_excel_spec_witness :
    read_safe_excel ⟨["d/a.XLSX"], [], ["d/a.XLSX"]⟩ "d/a.XLSX" none =
      .ok ⟨"d/a.XLSX", some "openpyxl", false⟩ ∧
    read_safe_excel ⟨["b.xyz"], [], ["b.xyz"]⟩ "b.xyz" none = .ok ⟨"b.xyz", none, true⟩ ∧
    read_safe_excel ⟨[], [], []⟩ "c.xlsx" none = .error .fileNotFoundError := by
  refine ⟨?_, ?_, ?_⟩
  · exact ((read_safe_excel_spec ⟨["d/a.XLSX"], [], ["d/a.XLSX"]⟩ "d/a.XLSX" none).2
      (by decide)).1 "openpyxl" (by decide) rfl
  · exact ((read_safe_excel_spec ⟨["b.xyz"], [], ["b.xyz"]⟩ "b.xyz" none).2
      (by decide)).2.2 (by decide) rfl
  · exact (read_safe_excel_spec ⟨[], [], []⟩ "c.xlsx" none).1 .fileNotFoundError (by decide)

/-- C3: when configuration schema validation fails for any path field, the
loader ends in the validation-failure outcome carrying EVERY failing field —
each with its field name and a nonempty human-readable message — and no
(partial) Configuration is ever returned to the caller. -/
theorem settings_validation_collects_all (fs : Fs) (raw : RawCfg)
    (hfail : ∃ fld ∈ pathFields, fieldError fs raw.paths fld ≠ none) :
    settings_init fs (some raw) = .validationFailure (collectErrors fs raw.paths) ∧
    (∀ fld ∈ pathFields, ∀ m, fieldError fs raw.paths fld = some m →
      (fld.1, m) ∈ collectErrors fs raw.paths ∧ m ≠ "") ∧
    (∀ pc cs fn, settings_init fs (some raw) ≠ .ok pc cs fn) := by
  have hmsg : ∀ fld m, fieldError fs raw.paths fld = some m → m ≠ "" := by
    intro fld m hm
    unfold fieldError at hm
    cases hl : lookupRaw raw.paths fld.1 with
    | none =>
      rw [hl] at hm
      simp only [Option.some.injEq] at hm
      rw [← hm]
      decide
    | some v =>
      rw [hl] at hm
      cases hk : fld.2 with
      | file =>
        rw [hk] at hm
        simp only [] at hm
        by_cases hv : v ∈ fs.files
        · rw [if_pos hv] at hm
          exact Option.noConfusion hm
        · rw [if_neg hv] at hm
          rw [← Option.some.inj hm]
          decide
      | dir =>
        rw [hk] at hm
        simp only [] at hm
        by_cases hv : v ∈ fs.dirs
        · rw [if_pos hv] at hm
          exact Option.noConfusion hm
        · rw [if_neg hv] at hm
          rw [← Option.some.inj hm]
          decide
  obtain ⟨fld, hin, hne⟩ := hfail
  obtain ⟨m0, hm0⟩ := Option.ne_none_iff_exists'.mp hne
  have hmem0 : (fld.1, m0) ∈ collectErrors fs raw.paths := by
    unfold collectErrors
    exact List.mem_filterMap.mpr ⟨fld, hin, by rw [hm0]; rfl⟩
  have hnil : collectErrors fs raw.paths ≠ [] := List.ne_nil_of_mem hmem0
  have hval : validatePaths fs raw.paths = .error (collectErrors fs raw.paths) := by
    unfold validatePaths
    rw [if_neg hnil]
  refine ⟨?_, ?_, ?_⟩
  · show (match validatePaths fs raw.paths with
      | .ok pc => LoadResult.ok pc raw.colors raw.fileNames
      | .error errs => LoadResult.validationFailure errs) =
      LoadResult.validationFailure (collectErrors fs raw.paths)
    rw [hval]
  · intro fld2 hin2 m hm
    refine ⟨?_, hmsg fld2 m hm⟩
    unfold collectErrors
    exact List.mem_filterMap.mpr ⟨fld2, hin2, by rw [hm]; rfl⟩
  · intro pc cs fn
    show (match validatePaths fs raw.paths with
      | .ok pc => LoadResult.ok pc raw.colors raw.fileNames
      | .error errs => LoadResult.validationFailure errs) ≠ LoadResult.ok pc cs fn
    rw [hval]
    exact fun hc => LoadResult.noConfusion hc

/-- Witness for C3 on a configuration with two independent failures — the
base field missing from the mapping and the sellin field pointing at a
nonexistent file: both appear in the reported error list, with messages. -/
theorem settings_validation_collects_all_witness :
    settings_init cfgFs (some cfgRaw) = .validationFailure (collectErrors cfgFs cfgRaw.paths) ∧
    collectErrors cfgFs cfgRaw.paths =
      [("base", "Field required"),
       ("sellin", "Arquivo não encontrado no diretório especificado.")] := by
  refine ⟨(settings_validation_collects_all cfgFs cfgRaw ?_).1, by decide⟩
  exact ⟨("base", .file), by decide, by decide⟩

/-- C2 (amended): normalize_key is idempotent on every table whose named
column occurs exactly once and contains no cell whose normalized string form
is "NAN" or "NONE" (so no np.nan missing values and no nan/none spellings):
there the transform applied to the normalised table reproduces it exactly.
In general idempotence FAILS: a first application that produced the pd.NA
marker is altered again by the second application, which stringifies pd.NA to
the literal "<NA>" (see the counterexample). -/
theorem clean_key_idempotent (t : Table) (c : String) (i : Nat)
    (hpos : colPositions t.cols c = [i])
    (hcells : ∀ r ∈ t.rows, normStr (cellAt r i).toStr ≠ "NAN" ∧
      normStr (cellAt r i).toStr ≠ "NONE") :
    clean_key [c] t = .ok (normColAt t i) ∧
    clean_key [c] (normColAt t i) = .ok (normColAt t i) := by
  have hmem : c ∈ t.cols := by
    by_contra hc
    rw [colPositions_eq_nil.mpr hc] at hpos
    exact List.noConfusion hpos
  have happly : ∀ s : Table, c ∈ s.cols → colPositions s.cols c = [i] →
      clean_key [c] s = .ok (normColAt s i) := by
    intro s hm hp
    simp only [clean_key, clean_key_go]
    rw [if_pos hm, hp]
  have hfix : normColAt (normColAt t i) i = normColAt t i := by
    unfold normColAt
    congr 1
    rw [List.map_map]
    apply List.map_congr_left
    rintro ⟨lab, cells⟩ hr
    obtain ⟨h1, h2⟩ := hcells ⟨lab, cells⟩ hr
    simp only [cellAt] at h1 h2
    show (lab, (cells.set i (normCell (cells.getD i Cell.nan))).set i
        (normCell ((cells.set i (normCell (cells.getD i Cell.nan))).getD i Cell.nan))) =
      (lab, cells.set i (normCell (cells.getD i Cell.nan)))
    have hlen : i < cells.length := by
      by_contra hno
      have he : cells.getD i Cell.nan = Cell.nan := List.getD_eq_default _ _ (by omega)
      rw [he] at h1
      exact h1 (by decide)
    have e1 : normCell (cells.getD i Cell.nan) =
        Cell.str (normStr (cells.getD i Cell.nan).toStr) := by
      unfold normCell
      rw [if_neg h1, if_neg h2]
    have hcell : (cells.set i (normCell (cells.getD i Cell.nan))).getD i Cell.nan =
        normCell (cells.getD i Cell.nan) := by
      rw [List.getD_eq_getElem?_getD, List.getElem?_set_self hlen]
      rfl
    have hidem := normStr_idem ((cells.getD i Cell.nan).toStr)
    have e2 : normCell (Cell.str (normStr (cells.getD i Cell.nan).toStr)) =
        Cell.str (normStr (cells.getD i Cell.nan).toStr) := by
      show (if normStr (normStr (cells.getD i Cell.nan).toStr) = "NAN" then Cell.na
        else if normStr (normStr (cells.getD i Cell.nan).toStr) = "NONE" then Cell.na
        else Cell.str (normStr (normStr (cells.getD i Cell.nan).toStr))) =
        Cell.str (normStr (cells.getD i Cell.nan).toStr)
      rw [hidem, if_neg h1, if_neg h2]
    have hnn : normCell (normCell (cells.getD i Cell.nan)) =
        normCell (cells.getD i Cell.nan) := by
      rw [e1]; exact e2
    rw [hcell, hnn, List.set_set]
  exact ⟨happly t hmem hpos, by rw [happly (normColAt t i) hmem hpos, hfix]⟩

/-- Witness for C2 on a one-column table holding the string " a ": the
normalised table (trimmed and upper-cased to "A") is a fixed point of the
transform. -/
theorem clean_key_idempotent_witness :
    clean_key ["X"] ⟨["X"], [(0, [Cell.str " a "])]⟩ =
      .ok (normColAt ⟨["X"], [(0, [Cell.str " a "])]⟩ 0) ∧
    clean_key ["X"] (normColAt ⟨["X"], [(0, [Cell.str " a "])]⟩ 0) =
      .ok (normColAt ⟨["X"], [(0, [Cell.str " a "])]⟩ 0) :=
  clean_key_idempotent ⟨["X"], [(0, [Cell.str " a "])]⟩ "X" 0 (by decide) (by decide)

/-- Counterexample to C2 as stated: on a one-row table whose X cell is the
float missing value np.nan, the first application of normalize_key yields the
pd.NA marker (astype(str) gives "nan", upper-cased "NAN", replaced by pd.NA),
but the second application stringifies pd.NA to the literal "<NA>", which is
not replaced — applying the transform twice differs from applying it once. -/
theorem clean_key_not_idempotent_cex :
    clean_key ["X"] ⟨["X"], [(0, [Cell.nan])]⟩ = .ok ⟨["X"], [(0, [Cell.na])]⟩ ∧
    clean_key ["X"] ⟨["X"], [(0, [Cell.na])]⟩ = .ok ⟨["X"], [(0, [Cell.str "<NA>"])]⟩ ∧
    (⟨["X"], [(0, [Cell.str "<NA>"])]⟩ : Table) ≠ ⟨["X"], [(0, [Cell.na])]⟩ := by decide

/-- C5 (amended): extract_unique_values first drops duplicate-named columns
keeping the first occurrence and trims all column names; it fails with
ColumnNotFound if the requested column is then absent; if the trimmed name
still matches MORE than one column (original names differing only by
whitespace) it fails with an AttributeError instead of returning values; when
the name matches exactly one column, the result is the cleaned column values
(missing entries dropped, each value stringified and trimmed, de-duplicated
preserving first-seen order) restricted to the values not among the given
reference values when mode is not-in, to the values among them when mode is
in, and any other mode fails with InvalidArgument. -/
theorem extract_column_semantics (df : Table) (column mode : String) (args : List String) :
    (column ∉ (stripCols (dedupCols df)).cols →
      extract_column column mode args df = .error .keyError) ∧
    (∀ i j rest, colPositions (stripCols (dedupCols df)).cols column = i :: j :: rest →
      extract_column column mode args df = .error .attributeError) ∧
    (∀ i, colPositions (stripCols (dedupCols df)).cols column = [i] →
      (mode = "not-in" →
        extract_column column mode args df =
          .ok ((pdUnique (cleanedValues (stripCols (dedupCols df)) i)).filter
            (fun t => t ∉ args)) ∧
        ((pdUnique (cleanedValues (stripCols (dedupCols df)) i)).filter
          (fun t => t ∉ args)).Nodup ∧
        ((pdUnique (cleanedValues (stripCols (dedupCols df)) i)).filter
          (fun t => t ∉ args)).Sublist (cleanedValues (stripCols (dedupCols df)) i) ∧
        (∀ x, x ∈ (pdUnique (cleanedValues (stripCols (dedupCols df)) i)).filter
            (fun t => t ∉ args) ↔
          x ∈ cleanedValues (stripCols (dedupCols df)) i ∧ x ∉ args)) ∧
      (mode = "in" →
        extract_column column mode args df =
          .ok ((pdUnique (cleanedValues (stripCols (dedupCols df)) i)).filter
            (fun t => t ∈ args)) ∧
        (∀ x, x ∈ (pdUnique (cleanedValues (stripCols (dedupCols df)) i)).filter
            (fun t => t ∈ args) ↔
          x ∈ cleanedValues (stripCols (dedupCols df)) i ∧ x ∈ args)) ∧
      (mode ≠ "not-in" → mode ≠ "in" →
        extract_column column mode args df = .error .valueError)) := by
  refine ⟨fun h => ?_, fun i j rest hpos => ?_, fun i hpos => ?_⟩
  · simp only [extract_column, extract_column_rest]
    rw [if_neg h]
  · have hmem : column ∈ (stripCols (dedupCols df)).cols := by
      by_contra hc
      rw [colPositions_eq_nil.mpr hc] at hpos
      exact List.noConfusion hpos
    simp only [extract_column, extract_column_rest]
    rw [if_pos hmem, hpos]
  · have hmem : column ∈ (stripCols (dedupCols df)).cols := by
      by_contra hc
      rw [colPositions_eq_nil.mpr hc] at hpos
      exact List.noConfusion hpos
    have hbase : extract_column column mode args df =
        (if mode = "not-in" then
          .ok ((pdUnique (cleanedValues (stripCols (dedupCols df)) i)).filter
            (fun t => t ∉ args))
        else if mode = "in" then
          .ok ((pdUnique (cleanedValues (stripCols (dedupCols df)) i)).filter
            (fun t => t ∈ args))
        else .error .valueError) := by
      simp only [extract_column, extract_column_rest]
      rw [if_pos hmem, hpos]
    refine ⟨fun hm => ?_, fun hm => ?_, fun hm1 hm2 => ?_⟩
    · refine ⟨by rw [hbase, if_pos hm], (pdUnique_nodup _).filter _,
        (List.filter_sublist _).trans (pdUnique_sublist _), fun x => ?_⟩
      rw [List.mem_filter, mem_pdUnique]
      simp
    · refine ⟨by rw [hbase, if_pos hm, if_neg (by rw [hm]; decide)], fun x => ?_⟩
      rw [List.mem_filter, mem_pdUnique]
      simp
    · rw [hbase, if_neg hm1, if_neg hm2]

/-- Witness for C5 at the KAM example of the spec: the trimmed unique values
of the KAM column, with the reference value excluded, in first-seen order. -/
theorem extract_column_semantics_witness :
    extract_column "KAM" "not-in" ["A CLASSIFICAR"] tblK =
      .ok ((pdUnique (cleanedValues (stripCols (dedupCols tblK)) 0)).filter
        (fun t => t ∉ ["A CLASSIFICAR"])) ∧
    extract_column "KAM" "not-in" ["A CLASSIFICAR"] tblK = .ok ["Ana", "Bruno"] := by
  have h := (((extract_column_semantics tblK "KAM" "not-in" ["A CLASSIFICAR"]).2.2 0
    (by decide)).1 rfl).1
  exact ⟨h, h.trans (by decide)⟩

/-- Counterexample to C5 as stated: a table whose two column names "A " and
" A" differ only by whitespace — neither is dropped by the duplicate check,
both trim to "A", and the requested column "A" is then present — makes the
code fail with an AttributeError (df.loc picks a two-column DataFrame, which
has no .str accessor) instead of returning the collected values required by
the claim. -/
theorem extract_column_dupstrip_cex :
    extract_column "A" "not-in" [] ⟨["A ", " A"], [(0, [.str "x", .str "y"])]⟩ =
      .error .attributeError := by decide

/-- C10 (amended): with mode=interval and an arity other than one or two, both
remove_rows and remove_columns silently fall through to the individual-mode
branch — remove_rows dropping the rows whose index labels are listed,
remove_columns dropping the columns selected by the listed positions — and no
error about the unsupported arity is raised. -/
theorem interval_arity_fallback (args : List Nat) (df : Table)
    (h1 : args.length ≠ 1) (h2 : args.length ≠ 2) :
    remove_lines args "interval" df = remove_lines args "individual" df ∧
    remove_columns args "interval" df = remove_columns args "individual" df := by
  have hmode : ¬ ("individual" : String) = "interval" := by decide
  unfold remove_lines remove_columns
  constructor <;>
    rw [if_neg (fun hc => h1 hc.2), if_neg (fun hc => h2 hc.2),
      if_neg (fun hc => hmode hc.1), if_neg (fun hc => hmode hc.1)]

/-- Witness for C10 with three interval indices on concrete tables. -/
theorem interval_arity_fallback_witness :
    remove_lines [0, 1, 2] "interval" tbl5 = remove_lines [0, 1, 2] "individual" tbl5 ∧
    remove_columns [0, 1, 2] "interval" tbl5 = remove_columns [0, 1, 2] "individual" tbl5 :=
  interval_arity_fallback [0, 1, 2] tbl5 (by decide) (by decide)

/-- Allocating a fresh object at the end of the store does not move the
existing objects. -/
theorem getT_append (s : Store) (t : Table) (r : Nat) (h : r < s.length) :
    (s ++ [t]).getT r = s.getT r := by
  unfold Store.getT
  rw [List.getD_eq_getElem?_getD, List.getD_eq_getElem?_getD, List.getElem?_append, if_pos h]

/-- Writing one store cell leaves every other cell unchanged. -/
theorem getT_setT_ne (s : Store) (c r : Nat) (t : Table) (h : r ≠ c) :
    (s.setT c t).getT r = s.getT r := by
  unfold Store.getT Store.setT
  rw [List.getD_eq_getElem?_getD, List.getD_eq_getElem?_getD, List.getElem?_set,
    if_neg (fun hc => h hc.symm)]

/-- The clean_key loop writes only to the frame at index c. -/
theorem clean_key_loop_frame (colList : List String) :
    ∀ (s : Store) (c r : Nat), r ≠ c →
      ((clean_key_loop colList s c).1).getT r = s.getT r := by
  induction colList with
  | nil => intro s c r h; rfl
  | cons col rest ih =>
    intro s c r h
    unfold clean_key_loop
    by_cases hm : col ∈ (s.getT c).cols
    · rw [if_pos hm]
      cases hp : colPositions (s.getT c).cols col with
      | nil => rfl
      | cons i rest2 =>
        cases rest2 with
        | nil =>
          show ((clean_key_loop rest (s.setT c (normColAt (s.getT c) i)) c).1).getT r =
            s.getT r
          rw [ih (s.setT c (normColAt (s.getT c) i)) c r h, getT_setT_ne s c r _ h]
        | cons j rest3 => rfl
    · rw [if_neg hm]

/-- C7: every Transform leaves its input Table unchanged — executing the
bodies of row removal, column removal, renaming, value-based filtering,
unique-value extraction and key normalisation against the object store never
writes to the frame the caller passed in, whether the call returns a result
or raises an error; the result is always built in fresh objects. -/
theorem transforms_do_not_mutate_input (s : Store) (r : Nat) (h : r < s.length)
    (rowArgs : List Nat) (mode : String) (names : List String) (column : String)
    (values : List String) (emode : String) (colList : List String) :
    ((remove_lines_exec rowArgs mode s r).1).getT r = s.getT r ∧
    ((remove_columns_exec rowArgs mode s r).1).getT r = s.getT r ∧
    ((rename_columns_exec names s r).1).getT r = s.getT r ∧
    ((filter_columns_exec column values s r).1).getT r = s.getT r ∧
    ((extract_column_exec column emode values s r).1).getT r = s.getT r ∧
    ((clean_key_exec colList s r).1).getT r = s.getT r := by
  refine ⟨rfl, rfl, rfl, rfl, ?_, ?_⟩
  · show ((s ++ [dedupCols (s.getT r)]).setT s.length
      (stripCols ((s ++ [dedupCols (s.getT r)]).getT s.length))).getT r = s.getT r
    rw [getT_setT_ne _ _ _ _ (by omega), getT_append _ _ _ h]
  · show ((clean_key_loop colList (s ++ [s.getT r]) s.length).1).getT r = s.getT r
    rw [clean_key_loop_frame colList _ _ _ (by omega), getT_append _ _ _ h]

/-- Witness for C7 on a one-frame store holding the five-row example table. -/
theorem transforms_do_not_mutate_input_witness :
    ((remove_lines_exec [0] "individual" [tbl5] 0).1).getT 0 = Store.getT [tbl5] 0 ∧
    ((remove_columns_exec [0] "individual" [tbl5] 0).1).getT 0 = Store.getT [tbl5] 0 ∧
    ((rename_columns_exec ["Z"] [tbl5] 0).1).getT 0 = Store.getT [tbl5] 0 ∧
    ((filter_columns_exec "A" ["1"] [tbl5] 0).1).getT 0 = Store.getT [tbl5] 0 ∧
    ((extract_column_exec "A" "in" ["1"] [tbl5] 0).1).getT 0 = Store.getT [tbl5] 0 ∧
    ((clean_key_exec ["A"] [tbl5] 0).1).getT 0 = Store.getT [tbl5] 0 :=
  transforms_do_not_mutate_input [tbl5] 0 (by decide) [0] "individual" ["Z"] "A" ["1"]
    "in" ["A"]

/-- Counterexample to C10 as stated: on a five-row table labelled 1..5,
remove_rows(2, 3, 4, mode=interval) falls through to individual mode and drops
the rows LABELLED 2, 3, 4 — keeping the rows at positions 0 and 4 — while the
claim predicts deletion of POSITIONS 2, 3, 4, which would keep the rows
labelled 1 and 2. -/
theorem interval_arity_position_cex :
    remove_lines [2, 3, 4] "interval" shiftedTbl5 =
      .ok ⟨["A"], [(1, [.int 10]), (5, [.int 50])]⟩ ∧
    (⟨["A"], [(1, [.int 10]), (5, [.int 50])]⟩ : Table) ≠
      ⟨["A"], [(1, [.int 10]), (2, [.int 20])]⟩ := by decide

end GKA
